import Mathlib

/-!
Verification development for the mkcert entry point (src/main.go).

The definitions below are a shallow embedding of the orchestration code in
src/main.go: the identifier validator (the hostname regular expression and
the call to the Go standard library function net.ParseIP), the storage-root
resolver getCAROOT (with faithful models of filepath.Join and the Unix
variant of filepath.Clean), and the Run / install / uninstall / check state
machine, modelled as a pure function from an environment and an oracle for
the external collaborators to a trace of observable events and an outcome.
-/

namespace MkcertSpec

/-! ## Character classes of the hostname regular expression

The regular expression in src/main.go line 94 is
(?i)^(\*\.)?[0-9a-z_-]([0-9a-z._-]*[0-9a-z_-])?$ .
With the case-insensitive flag, the class [0-9a-z_-] is the ASCII digits,
letters of both cases, underscore and hyphen; [0-9a-z._-] additionally
contains the dot. -/

def isHostChar (c : Char) : Bool :=
  (('0' ≤ c && c ≤ '9') || ('a' ≤ c && c ≤ 'z') || ('A' ≤ c && c ≤ 'Z')
    || c == '_' || c == '-')

def isHostDotChar (c : Char) : Bool :=
  isHostChar c || c == '.'

/-- Matcher for the sub-expression ([0-9a-z._-]*[0-9a-z_-])? : the empty
string, or a nonempty string over the dotted class whose last character is
in the undotted class. -/
def tailMatch : List Char → Bool
  | [] => true
  | [c] => isHostChar c
  | c :: cs => isHostDotChar c && tailMatch cs

/-- Matcher for the sub-expression [0-9a-z_-]([0-9a-z._-]*[0-9a-z_-])? . -/
def bodyMatch : List Char → Bool
  | [] => false
  | c :: cs => isHostChar c && tailMatch cs

/-- The optional leading wildcard group (\*\.)? : the remainder after a
literal star-dot, when present. -/
def dropWildcard : List Char → Option (List Char)
  | '*' :: '.' :: rest => some rest
  | _ => none

/-- Matcher for the anchored regular expression of src/main.go line 94:
the body alone, or a leading wildcard label followed by the body. -/
def hostnameRegexpMatch (s : String) : Bool :=
  bodyMatch s.data ||
    (match dropWildcard s.data with
     | some rest => bodyMatch rest
     | none => false)

/-! ## net.ParseIP

src/main.go line 96 calls net.ParseIP. The definitions below transcribe the
Go standard library parser (net/ip.go, net/parse.go of the Go releases
contemporary with this source): ParseIP scans for the first dot or colon
and dispatches to the IPv4 or IPv6 parser. Addresses are represented as
their 16-byte form, each byte a Nat. -/

def big : Nat := 0xFFFFFF

/-- Decimal-to-integer helper dtoi: accumulated value, characters
consumed, success flag. -/
def dtoiAux : List Char → Nat → Nat → Nat × Nat × Bool
  | [], n, i => if i = 0 then (0, 0, false) else (n, i, true)
  | c :: cs, n, i =>
    if '0' ≤ c ∧ c ≤ '9' then
      let n2 := n * 10 + (c.toNat - '0'.toNat)
      if big ≤ n2 then (big, i + 1, false) else dtoiAux cs n2 (i + 1)
    else if i = 0 then (0, 0, false) else (n, i, true)

def dtoi (s : List Char) : Nat × Nat × Bool := dtoiAux s 0 0

def hexVal (c : Char) : Option Nat :=
  if '0' ≤ c ∧ c ≤ '9' then some (c.toNat - '0'.toNat)
  else if 'a' ≤ c ∧ c ≤ 'f' then some (c.toNat - 'a'.toNat + 10)
  else if 'A' ≤ c ∧ c ≤ 'F' then some (c.toNat - 'A'.toNat + 10)
  else none

/-- Hexadecimal-to-integer helper xtoi: accumulated value, characters
consumed, success flag. -/
def xtoiAux : List Char → Nat → Nat → Nat × Nat × Bool
  | [], n, i => if i = 0 then (0, 0, false) else (n, i, true)
  | c :: cs, n, i =>
    match hexVal c with
    | none => if i = 0 then (0, 0, false) else (n, i, true)
    | some v =>
      let n2 := n * 16 + v
      if big ≤ n2 then (0, i, false) else xtoiAux cs n2 (i + 1)

def xtoi (s : List Char) : Nat × Nat × Bool := xtoiAux s 0 0

/-- The 16-byte form of an IPv4 address, as built by Go's IPv4(a,b,c,d). -/
def v4InV6 (a b c d : Nat) : List Nat :=
  [0, 0, 0, 0, 0, 0, 0, 0, 0, 0, 0xFF, 0xFF, a, b, c, d]

/-- The last three dot-separated octets of parseIPv4 (the loop iterations
with i greater than zero, which require a leading dot). -/
def parseIPv4Rest : Nat → List Char → List Nat → Option (List Nat)
  | 0, s, acc =>
    if s = [] then
      match acc with
      | [a, b, c, d] => some (v4InV6 a b c d)
      | _ => none
    else none
  | k + 1, s, acc =>
    match s with
    | '.' :: s2 =>
      match dtoi s2 with
      | (n, c, ok) =>
        if ok = false ∨ 255 < n then none
        else parseIPv4Rest k (s2.drop c) (acc ++ [n])
    | _ => none

/-- Transcription of Go's parseIPv4: four dot-separated decimal octets,
each at most 255, consuming the entire string. -/
def parseIPv4 (s : List Char) : Option (List Nat) :=
  match dtoi s with
  | (n, c, ok) =>
    if ok = false ∨ 255 < n then none
    else parseIPv4Rest 3 (s.drop c) [n]

/-- End of Go's parseIPv6 loop: the string must be exhausted; a short
address needs an ellipsis, which expands to the missing zero bytes; a full
address must not also carry an ellipsis. -/
def finishIPv6 (s : List Char) (ip : List Nat) (ellip : Option Nat) :
    Option (List Nat) :=
  if s = [] then
    if ip.length < 16 then
      match ellip with
      | none => none
      | some e =>
        some (ip.take e ++ List.replicate (16 - ip.length) 0 ++ ip.drop e)
    else
      match ellip with
      | some _ => none
      | none => some ip
  else none

/-- The loop of Go's parseIPv6: hex groups separated by colons, an
optional one-time ellipsis, and an optional trailing embedded IPv4
address. The fuel argument bounds the iteration count; each recursive
call adds two bytes, so fuel 8 reproduces the loop condition i < 16. -/
def parseIPv6Loop : Nat → List Char → List Nat → Option Nat → Option (List Nat)
  | 0, s, ip, ellip => finishIPv6 s ip ellip
  | fuel + 1, s, ip, ellip =>
    if 16 ≤ ip.length then finishIPv6 s ip ellip
    else
      match xtoi s with
      | (n, c, ok) =>
        if ok = false ∨ 0xFFFF < n then none
        else if (s.drop c).head? = some '.' then
          if ellip = none ∧ ip.length ≠ 12 then none
          else if 16 < ip.length + 4 then none
          else
            match parseIPv4 s with
            | none => none
            | some ip4 => finishIPv6 [] (ip ++ ip4.drop 12) ellip
        else
          let ip2 := ip ++ [n / 256, n % 256]
          let s2 := s.drop c
          if s2 = [] then finishIPv6 [] ip2 ellip
          else
            match s2 with
            | ':' :: rest =>
              if rest = [] then none
              else
                match rest with
                | ':' :: rest2 =>
                  if ellip ≠ none then none
                  else if rest2 = [] then finishIPv6 [] ip2 (some ip2.length)
                  else parseIPv6Loop fuel rest2 ip2 (some ip2.length)
                | _ => parseIPv6Loop fuel rest ip2 ellip
            | _ => none

/-- Transcription of Go's parseIPv6 (zones not allowed, as called from
ParseIP): an optional leading ellipsis, then the group loop. -/
def parseIPv6 (s : List Char) : Option (List Nat) :=
  match s with
  | ':' :: ':' :: rest =>
    if rest = [] then some (List.replicate 16 0)
    else parseIPv6Loop 8 rest [] (some 0)
  | _ => parseIPv6Loop 8 s [] none

/-- Transcription of Go's net.ParseIP: scan for the first dot or colon;
a dot dispatches to the IPv4 parser, a colon to the IPv6 parser; a string
with neither is not an address. -/
def parseIP (s : String) : Option (List Nat) :=
  match s.data.find? (fun c => c == '.' || c == ':') with
  | some '.' => parseIPv4 s.data
  | some ':' => parseIPv6 s.data
  | _ => none

/-- The acceptance test of the validation loop in src/main.go lines
95-103: a name passes if net.ParseIP accepts it or the hostname regular
expression matches it. -/
def validName (s : String) : Bool :=
  (parseIP s).isSome || hostnameRegexpMatch s

/-- The validation loop of src/main.go lines 95-103 aborts at the first
name that fails the acceptance test. -/
def firstInvalid (args : List String) : Option String :=
  args.find? (fun n => !validName n)

/-! ## filepath.Join and getCAROOT

src/main.go lines 108-134. filepath.Join drops leading empty elements,
joins the rest with the separator and cleans the result; it is modelled
here in its slash-separated form (the separator does not matter for any
statement below). filepathClean follows Go's Clean: empty input becomes a
dot, repeated separators and single-dot segments vanish, dot-dot segments
pop a preceding segment (or accumulate at the front of a relative path). -/

def cleanFold (rooted : Bool) (acc : List String) (c : String) : List String :=
  if c = ".." then
    match acc with
    | [] => if rooted then [] else [c]
    | a :: rest => if a = ".." then c :: a :: rest else rest
  else c :: acc

def filepathClean (path : String) : String :=
  match path.data with
  | [] => "."
  | c :: cs =>
    let rooted := c == '/'
    let comps := (((c :: cs).splitOn '/').map List.asString).filter
      (fun seg => seg ≠ "" ∧ seg ≠ ".")
    let out := comps.foldl (cleanFold rooted) []
    let res := (if rooted then "/" else "") ++ String.intercalate "/" out.reverse
    if res = "" then "." else res

def filepathJoin (elems : List String) : String :=
  match elems.dropWhile (fun e => e = "") with
  | [] => ""
  | rest => filepathClean (String.intercalate "/" rest)

/-- The process environment: the host operating system family and the
environment-variable lookup. Go's os.Getenv returns the empty string for
an unset variable, so lookup is total into String. -/
structure Env where
  goos : String
  getenv : String → String

/-- Transcription of getCAROOT, src/main.go lines 108-134: the CAROOT
override wins if non-empty; otherwise an OS-family base directory is
chosen and the fixed subdirectory is appended with filepath.Join. -/
def getCAROOT (env : Env) : String :=
  if env.getenv ("CAROOT") ≠ "" then env.getenv ("CAROOT")
  else if env.goos = "windows" then
    filepathJoin [env.getenv ("LocalAppData"), "mkcert"]
  else if env.goos = "darwin" then
    let dir := env.getenv ("HOME")
    if dir = "" then ""
    else filepathJoin [filepathJoin [dir, "Library", "Application Support"], "mkcert"]
  else
    let xdg := env.getenv ("XDG_DATA_HOME")
    if xdg = "" then
      let home := env.getenv ("HOME")
      if home = "" then ""
      else filepathJoin [filepathJoin [home, ".local", "share"], "mkcert"]
    else filepathJoin [xdg, "mkcert"]

/-! ## The Run / install / uninstall / check state machine

src/main.go lines 20-31 (main), 49-106 (Run), 136-163 (install,
uninstall, check). The external collaborators — the filesystem MkdirAll,
the authority loader loadCA, the platform trust-store installer and
uninstaller, the certificate issuer makeCert, and the x509 verification
of the CA against the system roots — are represented by an oracle of
booleans, and every observable action is recorded in a trace of events.
A log.Fatal terminates the process; it is modelled as a fatal outcome
carrying the message, and no further events follow it. -/

inductive Event where
  | mkdirAll (path : String)
  | loadCA
  | verify
  | installPlatform
  | reportInstalled
  | uninstallPlatform
  | reportUninstalled
  | warnNotTrusted
  | printUsage
  | makeCert (names : List String)
  deriving DecidableEq, Repr

inductive Outcome where
  | ok
  | fatal (msg : String)
  deriving DecidableEq, Repr

/-- Success values of the external collaborators for one run. verifies is
the result of caCert.Verify against the system roots (true when the error
is nil); the Ok fields tell whether the corresponding external operation
succeeds (its own failure is fatal inside the collaborator). -/
structure Oracle where
  verifies : Bool
  mkdirOk : Bool
  loadCAOk : Bool
  installPlatformOk : Bool
  uninstallPlatformOk : Bool

/-- The mkcert struct of src/main.go lines 36-47: the two mode flags and
the process-lifetime verification-override flag ignoreCheckFailure (the
certificate and key are carried by the oracle). -/
structure Mkcert where
  installMode : Bool
  uninstallMode : Bool
  CAROOT : String
  ignoreCheckFailure : Bool

def bothFlagsMsg : String :=
  "ERROR: you can't set -install and -uninstall at the same time"
def carootFailMsg : String :=
  "ERROR: failed to find the default CA location, set one as the CAROOT env var"
def mkdirFailMsg : String := "ERROR: failed to create the CAROOT"
def loadCAFailMsg : String := "ERROR: failed to load the CA"
def platformInstallFailMsg : String := "ERROR: platform install operation failed"
def platformUninstallFailMsg : String := "ERROR: platform uninstall operation failed"
def installFailedMsg : String :=
  "Installing failed. Please report the issue with details about your environment"
def invalidNameMsg (name : String) : String :=
  "ERROR: " ++ name ++ " is not a valid hostname or IP"

/-- Transcription of check, src/main.go lines 156-163: the override flag
forces true; otherwise the result of verifying the CA certificate against
the system roots with default options. -/
def check (ora : Oracle) (m : Mkcert) : Bool :=
  if m.ignoreCheckFailure then true else ora.verifies

/-- check together with its observable behaviour: the system-roots
verification is only queried when the override flag is off. -/
def checkE (ora : Oracle) (m : Mkcert) : Bool × List Event :=
  (check ora m, if m.ignoreCheckFailure then [] else [Event.verify])

/-- Transcription of install, src/main.go lines 136-149: an immediate
no-op when check already succeeds; otherwise the platform installer runs
(Modelled from the spec: installPlatform is defined outside src/main.go;
per the spec any error from the external installer is fatal), the
override flag is set, and the re-check decides between the success report
and the defensive fatal branch. -/
def install (ora : Oracle) (m : Mkcert) : Mkcert × List Event × Outcome :=
  match checkE ora m with
  | (c1, e1) =>
    if c1 then (m, e1, Outcome.ok)
    else if ora.installPlatformOk = false then
      (m, e1 ++ [Event.installPlatform], Outcome.fatal platformInstallFailMsg)
    else
      let m2 : Mkcert := { m with ignoreCheckFailure := true }
      match checkE ora m2 with
      | (c2, e2) =>
        if c2 then
          (m2, e1 ++ [Event.installPlatform] ++ e2 ++ [Event.reportInstalled],
            Outcome.ok)
        else
          (m2, e1 ++ [Event.installPlatform] ++ e2, Outcome.fatal installFailedMsg)

/-- Transcription of uninstall, src/main.go lines 151-154: the platform
uninstaller runs unconditionally (Modelled from the spec: its own error
is fatal inside the collaborator), then success is reported. -/
def uninstall (ora : Oracle) (m : Mkcert) : List Event × Outcome :=
  if ora.uninstallPlatformOk = false then
    ([Event.uninstallPlatform], Outcome.fatal platformUninstallFailMsg)
  else ([Event.uninstallPlatform, Event.reportUninstalled], Outcome.ok)

/-- src/main.go lines 70-105: with no arguments the usage text is printed;
otherwise every argument is validated in order, the first invalid one is
fatal, and the issuer runs on the validated list. (Modelled from the
spec: makeCert is the external certificate issuer.) -/
def issuePhase (args : List String) : List Event × Outcome :=
  if args = [] then ([Event.printUsage], Outcome.ok)
  else
    match firstInvalid args with
    | some name => ([], Outcome.fatal (invalidNameMsg name))
    | none => ([Event.makeCert args], Outcome.ok)

/-- src/main.go lines 57-105: the mode dispatch after the CA is loaded.
Install mode returns early with no arguments and otherwise falls through
to issuance; uninstall mode always returns; otherwise a failing passive
check prints the warning and execution continues to issuance. -/
def afterLoad (ora : Oracle) (m : Mkcert) (args : List String) :
    List Event × Outcome :=
  if m.installMode then
    match install ora m with
    | (_, evs, Outcome.fatal msg) => (evs, Outcome.fatal msg)
    | (_, evs, Outcome.ok) =>
      if args = [] then (evs, Outcome.ok)
      else
        match issuePhase args with
        | (evs2, out) => (evs ++ evs2, out)
  else if m.uninstallMode then uninstall ora m
  else
    match checkE ora m with
    | (c, evs) =>
      let evs2 := if c then evs else evs ++ [Event.warnNotTrusted]
      match issuePhase args with
      | (evs3, out) => (evs2 ++ evs3, out)

/-- Transcription of Run, src/main.go lines 49-106: resolve the storage
root (fatal when empty), create it with MkdirAll (fatal on error), load
the CA (Modelled from the spec: loadCA is defined outside src/main.go;
a corrupt existing authority is fatal), then dispatch on the mode. -/
def run (env : Env) (ora : Oracle) (installMode uninstallMode : Bool)
    (args : List String) : List Event × Outcome :=
  let caroot := getCAROOT env
  if caroot = "" then ([], Outcome.fatal carootFailMsg)
  else if ora.mkdirOk = false then
    ([Event.mkdirAll caroot], Outcome.fatal mkdirFailMsg)
  else if ora.loadCAOk = false then
    ([Event.mkdirAll caroot, Event.loadCA], Outcome.fatal loadCAFailMsg)
  else
    let m : Mkcert :=
      { installMode := installMode, uninstallMode := uninstallMode,
        CAROOT := caroot, ignoreCheckFailure := false }
    match afterLoad ora m args with
    | (evs, out) => (Event.mkdirAll caroot :: Event.loadCA :: evs, out)

/-- Transcription of main, src/main.go lines 20-31: parse the two mode
flags; setting both is fatal before Run is entered; otherwise Run. -/
def mainGo (env : Env) (ora : Oracle) (installFlag uninstallFlag : Bool)
    (args : List String) : List Event × Outcome :=
  if installFlag && uninstallFlag then ([], Outcome.fatal bothFlagsMsg)
  else run env ora installFlag uninstallFlag args

/-! ## Specification-side grammars

specHostname transcribes the hostname grammar as the claim states it: an
optional leading wildcard label, then one or more dot-separated labels,
each label a nonempty string of alphanumerics, underscore and hyphen that
neither starts nor ends with hyphen or underscore. relaxedHostname states
the grammar the regular expression of src/main.go actually denotes: after
the optional wildcard label, one nonempty string of alphanumerics,
underscores, hyphens and dots that neither starts nor ends with a dot. -/

def specLabelOk (l : List Char) : Bool :=
  !l.isEmpty && l.all isHostChar &&
    (match l.head? with | some c => !(c == '-' || c == '_') | none => true) &&
    (match l.getLast? with | some c => !(c == '-' || c == '_') | none => true)

def specHostname (s : String) : Bool :=
  let t := match dropWildcard s.data with
    | some rest => rest
    | none => s.data
  (t.splitOn '.').all specLabelOk

def relaxedBody (l : List Char) : Bool :=
  !l.isEmpty && l.all isHostDotChar &&
    (match l.head? with | some c => !(c == '.') | none => true) &&
    (match l.getLast? with | some c => !(c == '.') | none => true)

def relaxedHostname (s : String) : Bool :=
  relaxedBody s.data ||
    (match dropWildcard s.data with
     | some rest => relaxedBody rest
     | none => false)

/-! ## The regular expression denotes exactly the relaxed grammar -/

theorem isHostChar_eq_dot (c : Char) :
    isHostChar c = (isHostDotChar c && !(c == '.')) := by
  by_cases h : c = '.'
  · subst h; decide
  · have hb : (c == '.') = false := by simp [h]
    simp [isHostDotChar, hb]

theorem tailMatch_eq (l : List Char) :
    tailMatch l =
      (l.all isHostDotChar &&
        (match l.getLast? with | some c => !(c == '.') | none => true)) := by
  induction l with
  | nil => rfl
  | cons a t ih =>
    cases t with
    | nil =>
      simp [tailMatch, isHostChar_eq_dot]
    | cons b t2 =>
      simp only [tailMatch, List.all_cons, List.getLast?_cons_cons, ih]
      cases isHostDotChar a <;> simp

theorem bodyMatch_eq (l : List Char) : bodyMatch l = relaxedBody l := by
  cases l with
  | nil => rfl
  | cons a t =>
    cases t with
    | nil =>
      simp [bodyMatch, tailMatch, relaxedBody, isHostChar_eq_dot,
        Bool.and_assoc, Bool.and_comm]
    | cons b t2 =>
      simp only [bodyMatch, tailMatch_eq, relaxedBody, List.isEmpty_cons,
        List.all_cons, List.head?_cons, List.getLast?_cons_cons,
        isHostChar_eq_dot, Bool.not_false, Bool.true_and]
      cases isHostDotChar a <;> cases (a == '.') <;> simp

theorem hostnameRegexpMatch_eq (s : String) :
    hostnameRegexpMatch s = relaxedHostname s := by
  unfold hostnameRegexpMatch relaxedHostname
  rw [bodyMatch_eq]
  cases dropWildcard s.data with
  | none => rfl
  | some rest => simp [bodyMatch_eq]

/-! ## Concrete environments and oracles used in witnesses -/

/-- A Windows host with every environment variable unset. -/
def windowsNoEnv : Env := { goos := "windows", getenv := fun _ => "" }

/-- A Unix host with only HOME set. -/
def linuxHomeEnv : Env :=
  { goos := "linux", getenv := fun k => if k = "HOME" then "/home/u" else "" }

/-- A Unix host with every environment variable unset. -/
def linuxNoEnv : Env := { goos := "linux", getenv := fun _ => "" }

/-- A host with the CAROOT override set. -/
def overrideEnv : Env :=
  { goos := "linux", getenv := fun k => if k = "CAROOT" then "/ca" else "" }

/-- Every external collaborator succeeds and the CA is already trusted. -/
def okOracle : Oracle :=
  { verifies := true, mkdirOk := true, loadCAOk := true,
    installPlatformOk := true, uninstallPlatformOk := true }

/-- Every external collaborator succeeds but the CA is not trusted. -/
def untrustedOracle : Oracle := { okOracle with verifies := false }

/-! ## Claims -/

/-- C2: the claim says that on a Windows host with no CAROOT override and
LocalAppData unset the resolver returns the unresolved (empty) path and
the program dies fatally. The windows branch of getCAROOT has no
emptiness guard: filepath.Join drops the empty base element and the
resolver returns the relative path mkcert, so the run proceeds — here all
the way to the usage print. The darwin and Unix branches both return the
unresolved signal for an unset HOME, and the spec states the same intent
for windows, so the missing guard is a slip in the code. -/
theorem C2_windows_unset_localappdata :
    getCAROOT windowsNoEnv = "mkcert" ∧
      run windowsNoEnv okOracle false false [] =
        ([Event.mkdirAll ("mkcert"), Event.loadCA, Event.verify,
          Event.printUsage], Outcome.ok) := by
  constructor
  · rfl
  · rfl

/-- C4: once the verification-override flag is set, check returns true
whatever the system-roots verification would say, and consequently the
defensive fatal branch of install (the Installing-failed message) is
unreachable for every oracle and every starting state. -/
theorem C4_override_check_fatal_unreachable (ora : Oracle) (m : Mkcert) :
    (m.ignoreCheckFailure = true → check ora m = true) ∧
      (install ora m).2.2 ≠ Outcome.fatal installFailedMsg := by
  constructor
  · intro h
    simp [check, h]
  · unfold install checkE check
    by_cases h : m.ignoreCheckFailure
    · simp [h]
    · cases hv : ora.verifies <;> cases hi : ora.installPlatformOk <;>
        simp [h, hv, hi, platformInstallFailMsg, installFailedMsg]

/-- C4 witness: a state with the override flag set, under an oracle whose
verification fails. -/
theorem C4_override_check_fatal_unreachable_witness :
    check untrustedOracle
        { installMode := true, uninstallMode := false, CAROOT := "/ca",
          ignoreCheckFailure := true } = true :=
  (C4_override_check_fatal_unreachable untrustedOracle
    { installMode := true, uninstallMode := false, CAROOT := "/ca",
      ignoreCheckFailure := true }).1 rfl

/-- C5: when check already succeeds at the start of install, install
returns at once: the state is unchanged, the trace holds only the check
consultation, the outcome is success, and the platform installer is never
invoked. -/
theorem C5_install_idempotent (ora : Oracle) (m : Mkcert)
    (h : check ora m = true) :
    install ora m = (m, (checkE ora m).2, Outcome.ok) ∧
      Event.installPlatform ∉ (install ora m).2.1 := by
  have he : install ora m = (m, (checkE ora m).2, Outcome.ok) := by
    simp [install, checkE, h]
  refine ⟨he, ?_⟩
  rw [he]
  by_cases ho : m.ignoreCheckFailure <;> simp [checkE, ho]

/-- C5 witness: an already-trusted oracle, override flag off. -/
theorem C5_install_idempotent_witness :
    install okOracle
        { installMode := true, uninstallMode := false, CAROOT := "/ca",
          ignoreCheckFailure := false } =
      ({ installMode := true, uninstallMode := false, CAROOT := "/ca",
          ignoreCheckFailure := false },
        (checkE okOracle
          { installMode := true, uninstallMode := false, CAROOT := "/ca",
            ignoreCheckFailure := false }).2, Outcome.ok) :=
  (C5_install_idempotent okOracle
    { installMode := true, uninstallMode := false, CAROOT := "/ca",
      ignoreCheckFailure := false } rfl).1

/-- C6: with both mode flags set, main dies fatally before Run is
entered: the trace is empty — no directory creation, no authority load,
no trust-store mutation — whatever the environment, the oracle and the
arguments. -/
theorem C6_both_flags_fatal (env : Env) (ora : Oracle) (args : List String) :
    mainGo env ora true true args = ([], Outcome.fatal bothFlagsMsg) := by
  simp [mainGo]

/-- C7: a non-empty CAROOT override is returned verbatim, whatever the
OS family and the other environment variables: no existence check and no
fixed subdirectory appended. -/
theorem C7_caroot_override_verbatim (env : Env)
    (h : env.getenv ("CAROOT") ≠ "") :
    getCAROOT env = env.getenv ("CAROOT") := by
  simp [getCAROOT, h]

/-- C7 witness: the override environment returns its CAROOT value. -/
theorem C7_caroot_override_verbatim_witness :
    getCAROOT overrideEnv = "/ca" :=
  (C7_caroot_override_verbatim overrideEnv (by decide)).trans rfl

/-- C8: uninstall never consults check — no verification event appears in
its trace — its first action is always the platform uninstaller, and when
the uninstaller returns it reports success with no re-verification, for
every trust state; and in uninstall mode the dispatcher invokes exactly
this operation. -/
theorem C8_uninstall_unconditional (ora : Oracle) (m : Mkcert)
    (args : List String) :
    Event.verify ∉ (uninstall ora m).1 ∧
      (uninstall ora m).1.head? = some Event.uninstallPlatform ∧
      (ora.uninstallPlatformOk = true →
        uninstall ora m =
          ([Event.uninstallPlatform, Event.reportUninstalled], Outcome.ok)) ∧
      (m.installMode = false → m.uninstallMode = true →
        afterLoad ora m args = uninstall ora m) := by
  refine ⟨?_, ?_, ?_, ?_⟩
  · cases hu : ora.uninstallPlatformOk <;> simp [uninstall, hu]
  · cases hu : ora.uninstallPlatformOk <;> simp [uninstall, hu]
  · intro hu; simp [uninstall, hu]
  · intro him hum; simp [afterLoad, him, hum]

/-- C8 witness: an untrusted state still uninstalls unconditionally. -/
theorem C8_uninstall_unconditional_witness :
    uninstall untrustedOracle
        { installMode := false, uninstallMode := true, CAROOT := "/ca",
          ignoreCheckFailure := false } =
      ([Event.uninstallPlatform, Event.reportUninstalled], Outcome.ok) :=
  (C8_uninstall_unconditional untrustedOracle
    { installMode := false, uninstallMode := true, CAROOT := "/ca",
      ignoreCheckFailure := false } []).2.2.1 rfl

/-! ## Trace membership lemmas -/

theorem mem_run (env : Env) (ora : Oracle) (im um : Bool)
    (args : List String) (e : Event)
    (h : e ∈ (run env ora im um args).1) :
    e = Event.mkdirAll (getCAROOT env) ∨ e = Event.loadCA ∨
      e ∈ (afterLoad ora
        { installMode := im, uninstallMode := um, CAROOT := getCAROOT env,
          ignoreCheckFailure := false } args).1 := by
  unfold run at h
  by_cases h1 : getCAROOT env = ""
  · simp [h1] at h
  · cases h2 : ora.mkdirOk <;> cases h3 : ora.loadCAOk <;>
      simp [h1, h2, h3] at h <;> tauto

theorem mem_afterLoad_uninstall (ora : Oracle) (m : Mkcert)
    (args : List String) (e : Event)
    (him : m.installMode = false) (hum : m.uninstallMode = true)
    (h : e ∈ (afterLoad ora m args).1) :
    e = Event.uninstallPlatform ∨ e = Event.reportUninstalled := by
  simp only [afterLoad, him, hum, Bool.false_eq_true, if_false, if_true] at h
  cases hu : ora.uninstallPlatformOk <;> simp [uninstall, hu] at h <;> tauto

theorem mem_issuePhase (args : List String) (e : Event)
    (h : e ∈ (issuePhase args).1) :
    e = Event.printUsage ∨ e = Event.makeCert args := by
  unfold issuePhase at h
  by_cases ha : args = []
  · simp [ha] at h; tauto
  · cases hf : firstInvalid args <;> simp [ha, hf] at h <;> tauto

theorem mem_afterLoad_normal (ora : Oracle) (m : Mkcert)
    (args : List String) (e : Event)
    (him : m.installMode = false) (hum : m.uninstallMode = false)
    (h : e ∈ (afterLoad ora m args).1) :
    e = Event.verify ∨ e = Event.warnNotTrusted ∨ e = Event.printUsage ∨
      e = Event.makeCert args := by
  simp only [afterLoad, him, hum, Bool.false_eq_true, if_false] at h
  rcases h4 : checkE ora m with ⟨c, evs⟩
  rcases h5 : issuePhase args with ⟨evs3, out⟩
  simp only [h4, h5] at h
  have hevs : evs = [] ∨ evs = [Event.verify] := by
    by_cases ho : m.ignoreCheckFailure <;> simp [checkE, ho] at h4 <;> tauto
  have hevs3 : e ∈ evs3 → e = Event.printUsage ∨ e = Event.makeCert args := by
    intro hm
    exact mem_issuePhase args e (by rw [h5]; exact hm)
  cases c <;> simp at h <;> rcases hevs with hv | hv <;> subst hv <;>
    simp at h <;> rcases h with h | h <;> try subst h
  all_goals tauto

theorem mem_install (ora : Oracle) (m : Mkcert) (e : Event)
    (h : e ∈ (install ora m).2.1) :
    e = Event.verify ∨ e = Event.installPlatform ∨
      e = Event.reportInstalled := by
  unfold install at h
  by_cases ho : m.ignoreCheckFailure <;>
    cases hv : ora.verifies <;> cases hi : ora.installPlatformOk <;>
    simp [checkE, check, ho, hv, hi] at h <;> tauto

theorem mem_afterLoad_install (ora : Oracle) (m : Mkcert)
    (args : List String) (e : Event)
    (him : m.installMode = true)
    (h : e ∈ (afterLoad ora m args).1) :
    e = Event.verify ∨ e = Event.installPlatform ∨
      e = Event.reportInstalled ∨ e = Event.printUsage ∨
      e = Event.makeCert args := by
  simp only [afterLoad, him, if_true] at h
  rcases h4 : install ora m with ⟨m2, evs, out⟩
  have hevs : e ∈ evs →
      e = Event.verify ∨ e = Event.installPlatform ∨
        e = Event.reportInstalled := by
    intro hm
    exact mem_install ora m e (by rw [h4]; exact hm)
  rcases h5 : issuePhase args with ⟨evs3, out3⟩
  have hevs3 : e ∈ evs3 → e = Event.printUsage ∨ e = Event.makeCert args := by
    intro hm
    exact mem_issuePhase args e (by rw [h5]; exact hm)
  cases out with
  | fatal msg =>
    simp only [h4] at h
    rcases hevs h with h6 | h6 | h6 <;> tauto
  | ok =>
    simp only [h4] at h
    by_cases ha : args = []
    · simp only [ha, if_true] at h
      rcases hevs h with h6 | h6 | h6 <;> tauto
    · simp only [ha, if_false, h5, List.mem_append] at h
      rcases h with h | h
      · rcases hevs h with h6 | h6 | h6 <;> tauto
      · rcases hevs3 h with h6 | h6 <;> tauto

/-- C1: the claim's grammar forbids labels that start or end with a
hyphen or underscore and forbids empty labels, but the validator of
src/main.go accepts both -foo and foo_bar..baz, neither of which is an IP
literal: the regular expression only constrains the first and last
character of the whole name, not of each label. -/
theorem C1_counterexample :
    validName ("-foo") = true ∧ parseIP ("-foo") = none ∧
      specHostname ("-foo") = false ∧
      validName ("foo_bar..baz") = true ∧ parseIP ("foo_bar..baz") = none ∧
      specHostname ("foo_bar..baz") = false :=
  ⟨rfl, rfl, rfl, rfl, rfl, rfl⟩

/-- C1 (amended): the validator accepts a string exactly when net.ParseIP
accepts it or it matches the grammar the regular expression actually
denotes — an optional leading wildcard label, then one nonempty string of
alphanumerics, underscores, hyphens and dots that neither starts nor ends
with a dot (case-insensitive; labels may start or end with hyphen or
underscore and may be empty). The empty string and exa mple.com are still
rejected, and the first rejected name makes the run fatal with an error
naming it. -/
theorem C1_amended_validator :
    (∀ s : String, validName s = true ↔
        ((parseIP s).isSome = true ∨ relaxedHostname s = true)) ∧
      validName ("") = false ∧ validName ("exa mple.com") = false ∧
      ∀ args name, firstInvalid args = some name →
        issuePhase args = ([], Outcome.fatal (invalidNameMsg name)) := by
  refine ⟨?_, rfl, rfl, ?_⟩
  · intro s
    simp [validName, hostnameRegexpMatch_eq, Bool.or_eq_true]
  · intro args name h
    have hne : args ≠ [] := by
      intro he
      subst he
      simp [firstInvalid] at h
    simp [issuePhase, hne, h]

/-- C1 witness: the iff applied to a wildcard name, and the fatal error
naming the offending string of a concrete batch. -/
theorem C1_amended_validator_witness :
    (validName ("*.example.com") = true ↔
        ((parseIP ("*.example.com")).isSome = true ∨
          relaxedHostname ("*.example.com") = true)) ∧
      issuePhase ["exa mple.com"] =
        ([], Outcome.fatal (invalidNameMsg ("exa mple.com"))) :=
  ⟨C1_amended_validator.1 ("*.example.com"),
    C1_amended_validator.2.2.2 ["exa mple.com"] ("exa mple.com") rfl⟩

/-- C3: an install-mode invocation with a positional argument performs
both the install activity (the platform installer runs) and certificate
issuance in the same run, contradicting the claim that no single
invocation both installs the authority and issues certificates. -/
theorem C3_counterexample :
    run overrideEnv untrustedOracle true false ["example.com"] =
      ([Event.mkdirAll ("/ca"), Event.loadCA, Event.verify,
        Event.installPlatform, Event.reportInstalled,
        Event.makeCert ["example.com"]], Outcome.ok) ∧
      Event.installPlatform ∈
        (run overrideEnv untrustedOracle true false ["example.com"]).1 ∧
      Event.makeCert ["example.com"] ∈
        (run overrideEnv untrustedOracle true false ["example.com"]).1 := by
  refine ⟨rfl, ?_, ?_⟩ <;> decide

/-- C3 (amended): every invocation performs at most one of the three
activities install, uninstall, passive check: an uninstall run never
touches the installer, the verifier or the issuer; a run with no mode
flag never touches the platform trust store; an install run never touches
the uninstaller. The one exception to the claim is that an install-mode
invocation with positional arguments continues to certificate issuance
after installing. -/
theorem C3_amended_single_activity (env : Env) (ora : Oracle)
    (im um : Bool) (args : List String) :
    (im = false → um = true →
      Event.installPlatform ∉ (run env ora im um args).1 ∧
      Event.verify ∉ (run env ora im um args).1 ∧
      ∀ ns, Event.makeCert ns ∉ (run env ora im um args).1) ∧
    (im = false → um = false →
      Event.installPlatform ∉ (run env ora im um args).1 ∧
      Event.uninstallPlatform ∉ (run env ora im um args).1) ∧
    (im = true → Event.uninstallPlatform ∉ (run env ora im um args).1) := by
  refine ⟨?_, ?_, ?_⟩
  · intro him hum
    refine ⟨?_, ?_, ?_⟩
    · intro h
      rcases mem_run env ora im um args _ h with h1 | h1 | h1 <;>
        first
        | simp at h1
        | (rcases mem_afterLoad_uninstall ora _ args _ him hum h1
            with h2 | h2 <;> simp at h2)
    · intro h
      rcases mem_run env ora im um args _ h with h1 | h1 | h1 <;>
        first
        | simp at h1
        | (rcases mem_afterLoad_uninstall ora _ args _ him hum h1
            with h2 | h2 <;> simp at h2)
    · intro ns h
      rcases mem_run env ora im um args _ h with h1 | h1 | h1 <;>
        first
        | simp at h1
        | (rcases mem_afterLoad_uninstall ora _ args _ him hum h1
            with h2 | h2 <;> simp at h2)
  · intro him hum
    refine ⟨?_, ?_⟩
    · intro h
      rcases mem_run env ora im um args _ h with h1 | h1 | h1 <;>
        first
        | simp at h1
        | (rcases mem_afterLoad_normal ora _ args _ him hum h1
            with h2 | h2 | h2 | h2 <;> simp at h2)
    · intro h
      rcases mem_run env ora im um args _ h with h1 | h1 | h1 <;>
        first
        | simp at h1
        | (rcases mem_afterLoad_normal ora _ args _ him hum h1
            with h2 | h2 | h2 | h2 <;> simp at h2)
  · intro him
    intro h
    rcases mem_run env ora im um args _ h with h1 | h1 | h1 <;>
      first
      | simp at h1
      | (rcases mem_afterLoad_install ora _ args _ him h1
          with h2 | h2 | h2 | h2 | h2 <;> simp at h2)

/-- C3 amended witness: a pure uninstall run touches neither the
installer nor the issuer. -/
theorem C3_amended_single_activity_witness :
    Event.installPlatform ∉
      (run overrideEnv okOracle false true ["example.com"]).1 :=
  ((C3_amended_single_activity overrideEnv okOracle false true
    ["example.com"]).1 rfl rfl).1

/-- C9: with neither mode flag set, the override flag off (as Run always
starts it) and the authority untrusted, the check is advisory: the
warning is printed and execution continues to identifier validation and
issuance, the outcome being exactly that of the issue phase, which does
not depend on the trust state — so the untrusted state never terminates
the process in this mode. -/
theorem C9_untrusted_advisory (ora : Oracle) (m : Mkcert)
    (args : List String)
    (him : m.installMode = false) (hum : m.uninstallMode = false)
    (hov : m.ignoreCheckFailure = false) (hv : ora.verifies = false) :
    afterLoad ora m args =
      ([Event.verify, Event.warnNotTrusted] ++ (issuePhase args).1,
        (issuePhase args).2) := by
  simp [afterLoad, him, hum, checkE, check, hov, hv]

/-- C9 witness: an untrusted no-mode run over one valid name warns and
then issues. -/
theorem C9_untrusted_advisory_witness :
    afterLoad untrustedOracle
        { installMode := false, uninstallMode := false, CAROOT := "/ca",
          ignoreCheckFailure := false } ["example.com"] =
      ([Event.verify, Event.warnNotTrusted] ++
          (issuePhase ["example.com"]).1,
        (issuePhase ["example.com"]).2) :=
  C9_untrusted_advisory untrustedOracle
    { installMode := false, uninstallMode := false, CAROOT := "/ca",
      ignoreCheckFailure := false } ["example.com"] rfl rfl rfl rfl

/-- C10: in every mode Run first resolves the storage root (fatal with no
event at all when unresolved), then creates it with MkdirAll (fatal right
after that event on failure), then loads the authority, and only then
runs the mode operation: the trace of every successful prefix starts with
the directory creation and the authority load, so even a pure uninstall
dies first on an unresolvable root or an uncreatable directory, and
creates the storage directory as a side effect. -/
theorem C10_run_phase_order (env : Env) (ora : Oracle) (im um : Bool)
    (args : List String) :
    (getCAROOT env = "" →
      run env ora im um args = ([], Outcome.fatal carootFailMsg)) ∧
    (getCAROOT env ≠ "" → ora.mkdirOk = false →
      run env ora im um args =
        ([Event.mkdirAll (getCAROOT env)], Outcome.fatal mkdirFailMsg)) ∧
    (getCAROOT env ≠ "" → ora.mkdirOk = true → ora.loadCAOk = false →
      run env ora im um args =
        ([Event.mkdirAll (getCAROOT env), Event.loadCA],
          Outcome.fatal loadCAFailMsg)) ∧
    (getCAROOT env ≠ "" → ora.mkdirOk = true → ora.loadCAOk = true →
      run env ora im um args =
        (Event.mkdirAll (getCAROOT env) :: Event.loadCA ::
            (afterLoad ora
              { installMode := im, uninstallMode := um,
                CAROOT := getCAROOT env, ignoreCheckFailure := false }
              args).1,
          (afterLoad ora
            { installMode := im, uninstallMode := um,
              CAROOT := getCAROOT env, ignoreCheckFailure := false }
            args).2)) := by
  refine ⟨?_, ?_, ?_, ?_⟩
  · intro h1
    simp [run, h1]
  · intro h1 h2
    simp [run, h1, h2]
  · intro h1 h2 h3
    simp [run, h1, h2, h3]
  · intro h1 h2 h3
    simp [run, h1, h2, h3]

/-- C10 witness: a pure uninstall on a Unix host with no HOME dies
fatally on the unresolved storage root, before any event. -/
theorem C10_run_phase_order_witness :
    run linuxNoEnv okOracle false true ["x"] =
      ([], Outcome.fatal carootFailMsg) :=
  (C10_run_phase_order linuxNoEnv okOracle false true ["x"]).1 rfl

end MkcertSpec
